import Mathlib

/-!
Shallow embedding of src/src/lib.rs of the smoosh repository: a transcoding
engine that sniffs a compression format from a 6-byte prefix of a stream and
recompresses the stream into a requested target format.

Bytes are modelled as `Nat`, byte streams as `List Nat`. The async reads of
the source are modelled by explicit state passing: a reader is a byte list
together with the count of bytes a single `read` call delivers. The external
codec crates (async-compression) are opaque to the repository; they are
modelled as an abstract family of encode/decode functions, with their
contracts taken from the spec where a claim needs them.
-/

/-- The CompressionType enum of lib.rs lines 74-83 (derives PartialEq/Eq). -/
inductive CompressionType where
  | Bzip
  | Deflate
  | Gzip
  | Xz
  | Zlib
  | Zstd
  | None
deriving DecidableEq, Repr

/-- Embeds detect_compression_type (lib.rs lines 62-72): first-match over the
magic-byte table on a 6-byte buffer. The Rust argument is `&[u8; 6]`; here a
`List Nat`, only ever applied to lists of length 6. -/
def detect_compression_type (buffer : List Nat) : CompressionType :=
  match buffer with
  | [0x28, 0xb5, 0x2f, 0xfd, _, _] => CompressionType.Zstd
  | [0x1f, 0x8b, _, _, _, _] => CompressionType.Gzip
  | [0x78, 0x01, _, _, _, _] => CompressionType.Deflate
  | [0x78, 0x9c, _, _, _, _] => CompressionType.Zlib
  | [0xfd, 0x37, 0x7a, 0x58, 0x5a, 0x00] => CompressionType.Xz
  | [0x42, 0x5a, 0x68, _, _, _] => CompressionType.Bzip
  | _ => CompressionType.None

/-- The contents of the zero-initialized buffer `[0; 6]` of lib.rs line 55
after the single `stream.read(&mut buffer)` of line 56 delivered the first
`n` bytes of the stream: the bytes read, then the untouched zero bytes. -/
def fillBuffer (input : List Nat) (n : Nat) : List Nat :=
  input.take n ++ List.replicate (6 - n) 0

/-- Embeds detect_stream_characteristics (lib.rs lines 52-60), parametrized
by the number `n` of bytes the single read call delivers (`n` is at most
`min 6 input.length`). Returns the detected kind, the returned magic vector
(`Vec::from(buffer)`, the whole 6-byte buffer), and the unread remainder of
the stream. -/
def detect_stream_characteristicsN (input : List Nat) (n : Nat) :
    CompressionType × List Nat × List Nat :=
  let buffer := fillBuffer input n
  (detect_compression_type buffer, buffer, input.drop n)

/-- detect_stream_characteristics with the deterministic read behavior of an
in-memory byte source (as in the repository's tests): the single read
delivers `min 6 input.length` bytes. -/
def detect_stream_characteristics (input : List Nat) :
    CompressionType × List Nat × List Nat :=
  detect_stream_characteristicsN input (min 6 input.length)

/-- Embeds detect_stream_characteristics including the `?` propagation of the
read result (lib.rs line 56): a failed read is an I/O error of some opaque
type `ε`; a successful read yields the stream and the delivered byte count. -/
def detect_stream_characteristicsE {ε : Type} (readResult : Except ε (List Nat × Nat)) :
    Except ε (CompressionType × List Nat) :=
  match readResult with
  | Except.error e => Except.error e
  | Except.ok (input, n) =>
      Except.ok ((detect_stream_characteristicsN input n).1,
                 (detect_stream_characteristicsN input n).2.1)

/-- Modelled from the spec: the external codec crates (async-compression
decoders/encoders of lib.rs lines 1-6) are out of this repository; per the
spec they are opaque "decode stream" and "encode stream" capabilities, one
per compression kind. `enc` is the complete encoding a finalized encoder
emits for a payload; `dec` the decoding of a complete stream. -/
structure CodecFamily where
  enc : CompressionType → List Nat → List Nat
  dec : CompressionType → List Nat → List Nat

/-- Embeds the decompressor selection match of lib.rs lines 26-34: a decode
adapter per detected kind, with the None arm a plain BufReader passthrough. -/
def decompressorOf (C : CodecFamily) (k : CompressionType) (s : List Nat) : List Nat :=
  match k with
  | CompressionType.Bzip => C.dec CompressionType.Bzip s
  | CompressionType.Deflate => C.dec CompressionType.Deflate s
  | CompressionType.Gzip => C.dec CompressionType.Gzip s
  | CompressionType.Xz => C.dec CompressionType.Xz s
  | CompressionType.Zlib => C.dec CompressionType.Zlib s
  | CompressionType.Zstd => C.dec CompressionType.Zstd s
  | CompressionType.None => s

/-- Embeds the recompressor selection match of lib.rs lines 36-44: an encode
adapter per target kind, with the None arm writing to the output directly. -/
def recompressorOf (C : CodecFamily) (k : CompressionType) (s : List Nat) : List Nat :=
  match k with
  | CompressionType.Bzip => C.enc CompressionType.Bzip s
  | CompressionType.Deflate => C.enc CompressionType.Deflate s
  | CompressionType.Gzip => C.enc CompressionType.Gzip s
  | CompressionType.Xz => C.enc CompressionType.Xz s
  | CompressionType.Zlib => C.enc CompressionType.Zlib s
  | CompressionType.Zstd => C.enc CompressionType.Zstd s
  | CompressionType.None => s

/-- Embeds recompress (lib.rs lines 9-50): detect, chain the magic bytes back
in front of the unread input (`magic.chain(input)`, line 19), copy verbatim
when detected kind equals target (lines 21-24), otherwise pipe the decode
adapter into the encode adapter and finalize (lines 26-49). The bytes written
to the output stream are returned. -/
def recompress (C : CodecFamily) (input : List Nat) (target : CompressionType) :
    List Nat :=
  let r := detect_stream_characteristics input
  let chained := r.2.1 ++ r.2.2
  if r.1 = target then chained
  else recompressorOf C target (decompressorOf C r.1 chained)

/-- An operation performed on the encode adapter of the general path: a byte
write from the copy loop (lib.rs line 46) or the finalization (line 47). -/
inductive EncOp where
  | write (b : Nat)
  | finalize
deriving DecidableEq, Repr

/-- The sequence of operations recompress performs on the encode adapter: on
the general path, `tokio::io::copy` (line 46) writes every byte the decode
adapter yields, then line 47 finalizes; the fast path (lines 21-24) touches
no encode adapter. -/
def recompressTrace (C : CodecFamily) (input : List Nat) (target : CompressionType) :
    List EncOp :=
  let r := detect_stream_characteristics input
  let chained := r.2.1 ++ r.2.2
  if r.1 = target then []
  else (decompressorOf C r.1 chained).map EncOp.write ++ [EncOp.finalize]

/-- A codec family whose encoders and decoders are the identity; it satisfies
the decode-after-encode contract and is used to evaluate the model at
concrete inputs. -/
def trivialCodec : CodecFamily :=
  ⟨fun _ s => s, fun _ s => s⟩

/-- Modelled from the spec: a codec family whose Zstd encoder emits the zstd
magic bytes 28 B5 2F FD first, as every real zstd frame does per the spec's
format table and interoperability requirement. Used to witness theorems that
assume only that magic-byte contract. -/
def magicCodec : CodecFamily :=
  ⟨fun k s =>
     match k with
     | CompressionType.Zstd => 0x28 :: 0xb5 :: 0x2f :: 0xfd :: s
     | _ => s,
   fun k s =>
     match k with
     | CompressionType.Zstd => s.drop 4
     | _ => s⟩

/-- The raw ASCII bytes of "this is a test". -/
def testInput : List Nat :=
  [0x74, 0x68, 0x69, 0x73, 0x20, 0x69, 0x73, 0x20, 0x61, 0x20, 0x74, 0x65, 0x73, 0x74]

/-- Helper: when the input holds at least 6 bytes, the magic vector is its
first 6 bytes, so chaining magic and remainder reconstructs the input. -/
theorem chained_eq_input_of_length_ge_six (input : List Nat) (h6 : 6 ≤ input.length) :
    (detect_stream_characteristics input).2.1 ++ (detect_stream_characteristics input).2.2
      = input := by
  unfold detect_stream_characteristics detect_stream_characteristicsN fillBuffer
  simp [Nat.min_eq_left h6, List.take_append_drop]

/-- Helper: decoding after encoding with the matched adapters is the identity,
for any codec family satisfying the decode-after-encode contract. -/
theorem decompressorOf_recompressorOf (C : CodecFamily)
    (hrt : ∀ k x, C.dec k (C.enc k x) = x) (k : CompressionType) (y : List Nat) :
    decompressorOf C k (recompressorOf C k y) = y := by
  cases k <;> simp [decompressorOf, recompressorOf, hrt]

/-- C1: the claim states that the prefix returned by detection is exactly the
bytes actually read, so that re-prepending it reconstructs the input. The code
instead returns the whole zero-initialized 6-byte buffer: for the 2-byte input
61 62 the returned prefix is 61 62 00 00 00 00, and re-prepending it to the
(empty) remainder yields a stream with four inserted 0x00 bytes, not the
original input. -/
theorem C1_prefix_padding_bug :
    (detect_stream_characteristics [0x61, 0x62]).2.1 = [0x61, 0x62, 0, 0, 0, 0] ∧
    (detect_stream_characteristics [0x61, 0x62]).2.1 ≠ [0x61, 0x62] ∧
    (detect_stream_characteristics [0x61, 0x62]).2.1
        ++ (detect_stream_characteristics [0x61, 0x62]).2.2 ≠ [0x61, 0x62] := by
  decide

/-- C2 counterexample: on the empty input with target None the detected kind
(None) equals the target, yet the fast-path copy emits the six zero bytes of
the padded magic buffer rather than the (empty) input, so the output is not a
byte-identical copy of the input. -/
theorem C2_fast_path_not_identity_on_short_input :
    (detect_stream_characteristics ([] : List Nat)).1 = CompressionType.None ∧
    recompress trivialCodec [] CompressionType.None = [0, 0, 0, 0, 0, 0] ∧
    recompress trivialCodec [] CompressionType.None ≠ ([] : List Nat) := by
  decide

/-- C2 amended: for every input of length at least 6 whose detected kind
equals the target, recompress writes exactly the input bytes to the output;
the output does not depend on the codec family, since no decode or encode
adapter is applied on the fast path. -/
theorem C2_fast_path_identity (C : CodecFamily) (input : List Nat)
    (target : CompressionType) (h6 : 6 ≤ input.length)
    (hdet : (detect_stream_characteristics input).1 = target) :
    recompress C input target = input := by
  unfold recompress
  simp only [hdet, if_pos rfl]
  exact chained_eq_input_of_length_ge_six input h6

/-- C2 amended, witness at a concrete 6-byte zstd-signature input. -/
theorem C2_fast_path_identity_witness :
    6 ≤ ([0x28, 0xb5, 0x2f, 0xfd, 1, 2] : List Nat).length ∧
    (detect_stream_characteristics [0x28, 0xb5, 0x2f, 0xfd, 1, 2]).1 = CompressionType.Zstd ∧
    recompress trivialCodec [0x28, 0xb5, 0x2f, 0xfd, 1, 2] CompressionType.Zstd
      = [0x28, 0xb5, 0x2f, 0xfd, 1, 2] :=
  ⟨by decide, by decide,
   C2_fast_path_identity trivialCodec [0x28, 0xb5, 0x2f, 0xfd, 1, 2]
     CompressionType.Zstd (by decide) (by decide)⟩

/-- C3 counterexample: the 5-byte input FD 37 7A 58 5A is shorter than the
detection window, and the bytes actually read satisfy no signature on their
own (the Xz signature requires a sixth byte 0x00); the claim therefore
requires the classification None. The code zero-fills the unread position,
which completes the Xz signature, so detection returns Xz. -/
theorem C3_zero_fill_completes_xz :
    ([0xfd, 0x37, 0x7a, 0x58, 0x5a] : List Nat).length < 6 ∧
    (detect_stream_characteristics [0xfd, 0x37, 0x7a, 0x58, 0x5a]).1 = CompressionType.Xz ∧
    (detect_stream_characteristics [0xfd, 0x37, 0x7a, 0x58, 0x5a]).1 ≠ CompressionType.None := by
  decide

/-- C3 amended: for every input shorter than the 6-byte window, detection does
not fail; the unread positions are filled with 0x00 before signature
comparison, so the input classifies exactly as the zero-padded 6-byte buffer
does under the signature table — None unless the padded buffer satisfies a
signature (padding can complete a signature whose missing bytes are 0x00, as
for Xz). -/
theorem C3_short_input_zero_padded (input : List Nat) (h : input.length < 6) :
    (detect_stream_characteristics input).1 =
      detect_compression_type (input ++ List.replicate (6 - input.length) 0) := by
  unfold detect_stream_characteristics detect_stream_characteristicsN fillBuffer
  simp [Nat.min_eq_right (Nat.le_of_lt h)]

/-- C3 amended, witness at a concrete 1-byte input. -/
theorem C3_short_input_zero_padded_witness :
    ([0x42] : List Nat).length < 6 ∧
    (detect_stream_characteristics [0x42]).1 =
      detect_compression_type ([0x42] ++ List.replicate (6 - ([0x42] : List Nat).length) 0) :=
  ⟨by decide, C3_short_input_zero_padded [0x42] (by decide)⟩

set_option maxHeartbeats 400000 in
/-- C6: for every 6-byte buffer, a buffer beginning with one of the six
recognized signatures (arbitrary bytes in the wildcard positions) classifies
as the corresponding kind, and a buffer matching none of the signatures
classifies as None. -/
theorem C6_detection_table (b0 b1 b2 b3 b4 b5 : Nat) :
    (b0 = 0x28 ∧ b1 = 0xb5 ∧ b2 = 0x2f ∧ b3 = 0xfd →
      detect_compression_type [b0, b1, b2, b3, b4, b5] = CompressionType.Zstd) ∧
    (b0 = 0x1f ∧ b1 = 0x8b →
      detect_compression_type [b0, b1, b2, b3, b4, b5] = CompressionType.Gzip) ∧
    (b0 = 0x78 ∧ b1 = 0x01 →
      detect_compression_type [b0, b1, b2, b3, b4, b5] = CompressionType.Deflate) ∧
    (b0 = 0x78 ∧ b1 = 0x9c →
      detect_compression_type [b0, b1, b2, b3, b4, b5] = CompressionType.Zlib) ∧
    (b0 = 0xfd ∧ b1 = 0x37 ∧ b2 = 0x7a ∧ b3 = 0x58 ∧ b4 = 0x5a ∧ b5 = 0x00 →
      detect_compression_type [b0, b1, b2, b3, b4, b5] = CompressionType.Xz) ∧
    (¬((b0 = 0x28 ∧ b1 = 0xb5 ∧ b2 = 0x2f ∧ b3 = 0xfd) ∨
       (b0 = 0x1f ∧ b1 = 0x8b) ∨
       (b0 = 0x78 ∧ b1 = 0x01) ∨
       (b0 = 0x78 ∧ b1 = 0x9c) ∨
       (b0 = 0xfd ∧ b1 = 0x37 ∧ b2 = 0x7a ∧ b3 = 0x58 ∧ b4 = 0x5a ∧ b5 = 0x00) ∨
       (b0 = 0x42 ∧ b1 = 0x5a ∧ b2 = 0x68)) →
      detect_compression_type [b0, b1, b2, b3, b4, b5] = CompressionType.None) ∧
    (b0 = 0x42 ∧ b1 = 0x5a ∧ b2 = 0x68 →
      detect_compression_type [b0, b1, b2, b3, b4, b5] = CompressionType.Bzip) := by
  refine ⟨?_, ?_, ?_, ?_, ?_, ?_, ?_⟩
  · rintro ⟨rfl, rfl, rfl, rfl⟩; rfl
  · rintro ⟨rfl, rfl⟩; rfl
  · rintro ⟨rfl, rfl⟩; rfl
  · rintro ⟨rfl, rfl⟩; rfl
  · rintro ⟨rfl, rfl, rfl, rfl, rfl, rfl⟩; rfl
  · intro hn
    unfold detect_compression_type
    split <;> simp_all
  · rintro ⟨rfl, rfl, rfl⟩; rfl

/-- C6, witness: the gzip signature with arbitrary trailing bytes, and an
all-zero buffer. -/
theorem C6_detection_table_witness :
    detect_compression_type [0x1f, 0x8b, 9, 9, 9, 9] = CompressionType.Gzip ∧
    detect_compression_type [0, 0, 0, 0, 0, 0] = CompressionType.None :=
  ⟨(C6_detection_table 0x1f 0x8b 9 9 9 9).2.1 ⟨rfl, rfl⟩,
   (C6_detection_table 0 0 0 0 0 0).2.2.2.2.2.1 (by decide)⟩

/-- C7: detection fails exactly when the underlying read fails. A read error
propagates unchanged as the I/O failure; every successful read — whatever
bytes it delivered, matched or unmatched — yields a successful detection
whose kind is given by the signature table on the filled buffer (None for an
unmatched prefix), never an error. -/
theorem C7_error_propagation {ε : Type} :
    (∀ e : ε, detect_stream_characteristicsE (Except.error e) = Except.error e) ∧
    (∀ input : List Nat, ∀ n : Nat,
      detect_stream_characteristicsE (ε := ε) (Except.ok (input, n)) =
        Except.ok (detect_compression_type (fillBuffer input n), fillBuffer input n)) ∧
    (∀ input : List Nat, ∀ n : Nat,
      ∃ k p, detect_stream_characteristicsE (ε := ε) (Except.ok (input, n)) =
        Except.ok (k, p)) :=
  ⟨fun _ => rfl, fun _ _ => rfl,
   fun input n => ⟨detect_compression_type (fillBuffer input n), fillBuffer input n, rfl⟩⟩

/-- C10: detection issues a single read into a zero-initialized 6-byte buffer
and returns the whole buffer: for every input and every count n of bytes the
single read delivers, the returned prefix vector has length exactly 6, its
first n bytes are the first n bytes of the input, every position from n on is
the byte 0x00, and exactly the n delivered bytes are consumed from the
stream. -/
theorem C10_prefix_always_six_zero_padded (input : List Nat) (n : Nat)
    (h : n ≤ min 6 input.length) :
    (detect_stream_characteristicsN input n).2.1.length = 6 ∧
    (detect_stream_characteristicsN input n).2.1.take n = input.take n ∧
    (detect_stream_characteristicsN input n).2.1.drop n = List.replicate (6 - n) 0 ∧
    (detect_stream_characteristicsN input n).2.2 = input.drop n := by
  have h6 : n ≤ 6 := le_trans h (Nat.min_le_left _ _)
  have hlen : n ≤ input.length := le_trans h (Nat.min_le_right _ _)
  have htk : (input.take n).length = n := List.length_take_of_le hlen
  refine ⟨?_, ?_, ?_, rfl⟩
  · simp [detect_stream_characteristicsN, fillBuffer, htk, Nat.min_eq_left hlen]
    omega
  · exact List.take_left' htk
  · exact List.drop_left' htk

/-- C10, witness at a 2-byte stream whose single read delivers only 1 byte. -/
theorem C10_prefix_always_six_zero_padded_witness :
    1 ≤ min 6 ([0x61, 0x62] : List Nat).length ∧
    ((detect_stream_characteristicsN [0x61, 0x62] 1).2.1.length = 6 ∧
     (detect_stream_characteristicsN [0x61, 0x62] 1).2.1.take 1 = ([0x61, 0x62] : List Nat).take 1 ∧
     (detect_stream_characteristicsN [0x61, 0x62] 1).2.1.drop 1 = List.replicate (6 - 1) 0 ∧
     (detect_stream_characteristicsN [0x61, 0x62] 1).2.2 = ([0x61, 0x62] : List Nat).drop 1) :=
  ⟨by decide, C10_prefix_always_six_zero_padded [0x61, 0x62] 1 (by decide)⟩

/-- C4: on the general path (detected kind differs from the target), after the
copy loop has written every byte the decode adapter yields, the encode
adapter is finalized exactly once, as the last operation before returning:
the operation trace is the payload writes followed by a single finalize. -/
theorem C4_finalize_exactly_once (C : CodecFamily) (input : List Nat)
    (target : CompressionType)
    (h : (detect_stream_characteristics input).1 ≠ target) :
    (recompressTrace C input target).count EncOp.finalize = 1 ∧
    (recompressTrace C input target).getLast? = some EncOp.finalize ∧
    (recompressTrace C input target).dropLast =
      (decompressorOf C (detect_stream_characteristics input).1
        ((detect_stream_characteristics input).2.1
          ++ (detect_stream_characteristics input).2.2)).map EncOp.write := by
  unfold recompressTrace
  simp only [if_neg h]
  refine ⟨?_, ?_, ?_⟩
  · have hw : ∀ l : List Nat, (l.map EncOp.write).count EncOp.finalize = 0 := by
      intro l
      rw [List.count_eq_zero]
      simp
    rw [List.count_append, hw]
    decide
  · rw [List.getLast?_append]
    rfl
  · exact List.dropLast_concat

/-- C4, witness: a 1-byte input detected as None, recompressed to Zstd. -/
theorem C4_finalize_exactly_once_witness :
    (detect_stream_characteristics [0x61]).1 ≠ CompressionType.Zstd ∧
    ((recompressTrace trivialCodec [0x61] CompressionType.Zstd).count EncOp.finalize = 1 ∧
     (recompressTrace trivialCodec [0x61] CompressionType.Zstd).getLast? = some EncOp.finalize ∧
     (recompressTrace trivialCodec [0x61] CompressionType.Zstd).dropLast =
       (decompressorOf trivialCodec (detect_stream_characteristics [0x61]).1
         ((detect_stream_characteristics [0x61]).2.1
           ++ (detect_stream_characteristics [0x61]).2.2)).map EncOp.write) :=
  ⟨by decide, C4_finalize_exactly_once trivialCodec [0x61] CompressionType.Zstd (by decide)⟩

/-- C9: recompression is deterministic — the embedded pipeline is a pure
function of the input bytes, the target kind and the codec family, so two
invocations on the same input with the same target and the same (assumed
deterministic) codecs produce byte-for-byte identical output. -/
theorem C9_deterministic (C : CodecFamily) (input₁ input₂ : List Nat)
    (target : CompressionType) (h : input₁ = input₂) :
    recompress C input₁ target = recompress C input₂ target := by
  rw [h]

/-- C9, witness: two invocations at a concrete input agree. -/
theorem C9_deterministic_witness :
    ([0x61, 0x62, 0x63] : List Nat) = [0x61, 0x62, 0x63] ∧
    recompress trivialCodec [0x61, 0x62, 0x63] CompressionType.Gzip =
      recompress trivialCodec [0x61, 0x62, 0x63] CompressionType.Gzip :=
  ⟨rfl, C9_deterministic trivialCodec [0x61, 0x62, 0x63] [0x61, 0x62, 0x63]
    CompressionType.Gzip rfl⟩

/-- C5 counterexample: with the identity codec family — which satisfies the
decode-after-encode contract — the empty input recompressed to Zstd decodes
to the six zero bytes of the padded magic buffer, not to the original
(empty) uncompressed payload. -/
theorem C5_round_trip_fails_short_input :
    (∀ k x, trivialCodec.dec k (trivialCodec.enc k x) = x) ∧
    decompressorOf trivialCodec CompressionType.Zstd
        (recompress trivialCodec [] CompressionType.Zstd) = [0, 0, 0, 0, 0, 0] ∧
    decompressorOf trivialCodec CompressionType.Zstd
        (recompress trivialCodec [] CompressionType.Zstd) ≠ ([] : List Nat) :=
  ⟨fun _ _ => rfl, by decide, by decide⟩

/-- C5 amended: for every input of length at least 6 and every target kind,
decoding the recompressed output with a target-kind decoder yields the
original uncompressed payload (the detected kind's decoding of the input),
for every codec family satisfying the decode-after-encode identity. -/
theorem C5_round_trip (C : CodecFamily) (hrt : ∀ k x, C.dec k (C.enc k x) = x)
    (input : List Nat) (target : CompressionType) (h6 : 6 ≤ input.length) :
    decompressorOf C target (recompress C input target) =
      decompressorOf C (detect_stream_characteristics input).1 input := by
  have hch := chained_eq_input_of_length_ge_six input h6
  unfold recompress
  by_cases hdt : (detect_stream_characteristics input).1 = target
  · simp [hdt, hch]
  · simp only [if_neg hdt]
    rw [decompressorOf_recompressorOf C hrt, hch]

/-- C5 amended, witness at a concrete 6-byte input and target Gzip. -/
theorem C5_round_trip_witness :
    (∀ k x, trivialCodec.dec k (trivialCodec.enc k x) = x) ∧
    6 ≤ ([1, 2, 3, 4, 5, 6] : List Nat).length ∧
    decompressorOf trivialCodec CompressionType.Gzip
        (recompress trivialCodec [1, 2, 3, 4, 5, 6] CompressionType.Gzip) =
      decompressorOf trivialCodec (detect_stream_characteristics [1, 2, 3, 4, 5, 6]).1
        [1, 2, 3, 4, 5, 6] :=
  ⟨fun _ _ => rfl, by decide,
   C5_round_trip trivialCodec (fun _ _ => rfl) [1, 2, 3, 4, 5, 6]
     CompressionType.Gzip (by decide)⟩

/-- C8: for the raw ASCII bytes of "this is a test" and target Zstd, the
detected kind is None, the general path decodes as passthrough and encodes as
Zstd, and the output is non-empty, differs from the input, and is
byte-for-byte the Zstd encoding of exactly the input bytes — the same bytes
the reference encoder receives. The only assumption on the external encoder
is the spec's format table: a real zstd frame begins with 28 B5 2F FD. -/
theorem C8_zstd_scenario (C : CodecFamily)
    (hmagic : ∀ x, ∃ r, C.enc CompressionType.Zstd x = 0x28 :: 0xb5 :: 0x2f :: 0xfd :: r) :
    (detect_stream_characteristics testInput).1 = CompressionType.None ∧
    recompress C testInput CompressionType.Zstd ≠ [] ∧
    recompress C testInput CompressionType.Zstd ≠ testInput ∧
    recompress C testInput CompressionType.Zstd = C.enc CompressionType.Zstd testInput := by
  have hx : recompress C testInput CompressionType.Zstd
      = C.enc CompressionType.Zstd testInput := rfl
  obtain ⟨r, hr⟩ := hmagic testInput
  refine ⟨by decide, ?_, ?_, hx⟩
  · rw [hx, hr]
    simp
  · rw [hx, hr]
    simp [testInput]

/-- C8, witness: a codec family whose Zstd encoder emits the zstd magic
bytes first. -/
theorem C8_zstd_scenario_witness :
    (∀ x, ∃ r, magicCodec.enc CompressionType.Zstd x = 0x28 :: 0xb5 :: 0x2f :: 0xfd :: r) ∧
    ((detect_stream_characteristics testInput).1 = CompressionType.None ∧
     recompress magicCodec testInput CompressionType.Zstd ≠ [] ∧
     recompress magicCodec testInput CompressionType.Zstd ≠ testInput ∧
     recompress magicCodec testInput CompressionType.Zstd =
       magicCodec.enc CompressionType.Zstd testInput) :=
  ⟨fun x => ⟨x, rfl⟩, C8_zstd_scenario magicCodec (fun x => ⟨x, rfl⟩)⟩
